import Mathlib

/-!
Shallow embedding of the wind-particle pipeline of `maplibre-gl-wind`
(deck.gl `WindParticleLayer` and its transform-feedback shader), together
with proofs of the spec's testable properties.

Float arithmetic of the source (JS numbers, GLSL `float`) is modelled over
the real numbers; the colour-ramp construction, which is exact integer and
rational arithmetic in the source, is modelled over `ℚ`.
-/

namespace WindGl

noncomputable section

open scoped Classical

/-! ### JS numeric primitives (used by `WindParticleLayer.ts`) -/

/-- JS `Math.trunc`-style truncation toward zero, as performed by the `%`
remainder operator: `a % b = a - b * trunc (a / b)`. -/
def jsTrunc (x : ℝ) : ℝ := if 0 ≤ x then (⌊x⌋ : ℝ) else (⌈x⌉ : ℝ)

/-- JS remainder operator `a % b` (sign follows the dividend). -/
def jsRem (a b : ℝ) : ℝ := a - b * jsTrunc (a / b)

/-- `function modulo(x, y) { return ((x % y) + y) % y; }` -/
def moduloTS (x y : ℝ) : ℝ := jsRem (jsRem x y + y) y

/-- `wrapLongitude(lng, minLng?)` from `WindParticleLayer.ts`: reduce into
`[-180, 180)` by floored modulo; if a minimum is supplied and the wrapped
value falls below it, add 360. -/
def wrapLongitudeTS (lng : ℝ) (minLng : Option ℝ) : ℝ :=
  let w := moduloTS (lng + 180) 360 - 180
  match minLng with
  | some m => if w < m then w + 360 else w
  | none => w

/-! ### Range lemmas for the JS remainder chain -/

lemma jsTrunc_le_of_nonneg {x : ℝ} (hx : 0 ≤ x) : jsTrunc x ≤ x := by
  simp only [jsTrunc, if_pos hx]
  exact Int.floor_le x

lemma lt_jsTrunc_add_one_of_nonneg {x : ℝ} (hx : 0 ≤ x) : x < jsTrunc x + 1 := by
  simp only [jsTrunc, if_pos hx]
  exact Int.lt_floor_add_one x

lemma le_jsTrunc_of_neg {x : ℝ} (hx : x < 0) : x ≤ jsTrunc x := by
  simp only [jsTrunc, if_neg (not_le.mpr hx)]
  exact Int.le_ceil x

lemma jsTrunc_lt_add_one_of_neg {x : ℝ} (hx : x < 0) : jsTrunc x < x + 1 := by
  simp only [jsTrunc, if_neg (not_le.mpr hx)]
  exact Int.ceil_lt_add_one x

/-- For a nonnegative dividend and positive divisor, `jsRem` lands in `[0, b)`. -/
lemma jsRem_mem_of_nonneg {a b : ℝ} (hb : 0 < b) (ha : 0 ≤ a) :
    0 ≤ jsRem a b ∧ jsRem a b < b := by
  have hq : 0 ≤ a / b := div_nonneg ha hb.le
  have h1 : jsTrunc (a / b) ≤ a / b := jsTrunc_le_of_nonneg hq
  have h2 : a / b < jsTrunc (a / b) + 1 := lt_jsTrunc_add_one_of_nonneg hq
  have hab : b * (a / b) = a := by field_simp
  constructor
  · have := mul_le_mul_of_nonneg_left h1 hb.le
    simp only [jsRem]
    nlinarith
  · have := mul_lt_mul_of_pos_left h2 hb
    simp only [jsRem]
    nlinarith

/-- For a negative dividend and positive divisor, `jsRem` lands in `(-b, 0]`. -/
lemma jsRem_mem_of_neg {a b : ℝ} (hb : 0 < b) (ha : a < 0) :
    -b < jsRem a b ∧ jsRem a b ≤ 0 := by
  have hq : a / b < 0 := div_neg_of_neg_of_pos ha hb
  have h1 : a / b ≤ jsTrunc (a / b) := le_jsTrunc_of_neg hq
  have h2 : jsTrunc (a / b) < a / b + 1 := jsTrunc_lt_add_one_of_neg hq
  have hab : b * (a / b) = a := by field_simp
  constructor
  · have := mul_lt_mul_of_pos_left h2 hb
    simp only [jsRem]
    nlinarith
  · have := mul_le_mul_of_nonneg_left h1 hb.le
    simp only [jsRem]
    nlinarith

/-- A value already in `[0, b)` is fixed by `jsRem`. -/
lemma jsRem_eq_self {c b : ℝ} (hb : 0 < b) (h0 : 0 ≤ c) (h1 : c < b) :
    jsRem c b = c := by
  have hq0 : 0 ≤ c / b := div_nonneg h0 hb.le
  have hq1 : c / b < 1 := (div_lt_one hb).mpr h1
  have : ⌊c / b⌋ = 0 := Int.floor_eq_zero_iff.mpr ⟨hq0, hq1⟩
  simp [jsRem, jsTrunc, if_pos hq0, this]

/-- A value in `[b, 2b)` is shifted down by `b` by `jsRem`. -/
lemma jsRem_eq_sub {c b : ℝ} (hb : 0 < b) (h0 : b ≤ c) (h1 : c < 2 * b) :
    jsRem c b = c - b := by
  have hq0 : (1 : ℝ) ≤ c / b := (le_div_iff₀ hb).mpr (by linarith)
  have hq1 : c / b < 2 := (div_lt_iff₀ hb).mpr (by linarith)
  have hfl : ⌊c / b⌋ = 1 := by
    rw [Int.floor_eq_iff]
    constructor
    · exact_mod_cast hq0
    · push_cast; linarith
  have hnn : 0 ≤ c / b := le_trans (by norm_num) hq0
  simp only [jsRem, jsTrunc, if_pos hnn, hfl]
  push_cast
  ring

/-- `moduloTS x y` lands in `[0, y)` for positive `y`. -/
lemma moduloTS_mem {x y : ℝ} (hy : 0 < y) :
    0 ≤ moduloTS x y ∧ moduloTS x y < y := by
  rcases le_or_lt 0 x with hx | hx
  · obtain ⟨h0, h1⟩ := jsRem_mem_of_nonneg hy hx
    have heq : moduloTS x y = jsRem x y := by
      unfold moduloTS
      rw [jsRem_eq_sub hy (by linarith) (by linarith)]
      ring
    rw [heq]; exact ⟨h0, h1⟩
  · obtain ⟨h0, h1⟩ := jsRem_mem_of_neg hy hx
    rcases eq_or_lt_of_le h1 with h1e | h1s
    · have heq : moduloTS x y = jsRem y y := by unfold moduloTS; rw [h1e]; ring_nf
      rw [heq, jsRem_eq_sub hy (le_refl y) (by linarith)]
      constructor <;> linarith
    · have heq : moduloTS x y = jsRem x y + y := by
        unfold moduloTS
        rw [jsRem_eq_self hy (by linarith) (by linarith)]
      rw [heq]
      constructor <;> linarith

/-- A value already in `[0, y)` is fixed by `moduloTS`. -/
lemma moduloTS_eq_self {c y : ℝ} (hy : 0 < y) (h0 : 0 ≤ c) (h1 : c < y) :
    moduloTS c y = c := by
  unfold moduloTS
  rw [jsRem_eq_self hy h0 h1, jsRem_eq_sub hy (by linarith) (by linarith)]
  ring

/-! ### GLSL primitives (used by `wind-particle-transform.glsl.ts`) -/

/-- GLSL `mod(x, y) = x - y * floor(x / y)` (floored modulo). -/
def glslMod (x y : ℝ) : ℝ := x - y * (⌊x / y⌋ : ℝ)

/-- GLSL `fract(x) = x - floor(x)`. -/
def glslFract (x : ℝ) : ℝ := x - (⌊x⌋ : ℝ)

/-- GLSL `clamp(x, lo, hi) = min(max(x, lo), hi)`. -/
def glslClamp (x lo hi : ℝ) : ℝ := min (max x lo) hi

/-- GLSL `mix(a, b, t) = a * (1 - t) + b * t` (componentwise linear blend). -/
def glslMix (a b t : ℝ) : ℝ := a * (1 - t) + b * t

/-- GLSL `smoothstep(e0, e1, x)`: clamp the normalised position to `[0,1]` and
apply the cubic `t * t * (3 - 2 * t)`. -/
def glslSmoothstep (e0 e1 x : ℝ) : ℝ :=
  let t := glslClamp ((x - e0) / (e1 - e0)) 0 1
  t * t * (3 - 2 * t)

/-- A GLSL `vec4`. -/
structure Vec4 where
  x : ℝ
  y : ℝ
  z : ℝ
  w : ℝ

/-- The `windUniforms` shader-module block. -/
structure WindUniforms where
  numParticles : ℝ
  maxAge : ℝ
  speedFactor : ℝ
  time : ℝ
  seed : ℝ
  viewportBounds : Vec4
  viewportZoomChangeFactor : ℝ
  imageUnscale : ℝ × ℝ
  bounds : Vec4

/-- Shader `isNaN(value) = !(value <= 0.0 || 0.0 <= value)`; over the real
model this is always false (there is no NaN), which we keep verbatim. -/
def glslIsNaN (v : ℝ) : Prop := ¬(v ≤ 0 ∨ 0 ≤ v)

/-- Shader one-argument `wrapLongitude`. -/
def wrapLongitudeGl (lng : ℝ) : ℝ := glslMod (lng + 180) 360 - 180

/-- Shader two-argument `wrapLongitude`. -/
def wrapLongitudeMinGl (lng minLng : ℝ) : ℝ :=
  let w := wrapLongitudeGl lng
  if w < minLng then w + 360 else w

/-- Shader `randFloat(seed) = fract(sin(dot(seed.xy, vec2(12.9898, 78.233))) * 43758.5453)`. -/
def randFloat (sx sy : ℝ) : ℝ :=
  glslFract (Real.sin (sx * 12.9898 + sy * 78.233) * 43758.5453)

/-- Shader `randPoint(seed) = vec2(randFloat(seed + 1.3), randFloat(seed + 2.1))`
(scalar added componentwise to the vec2 seed). -/
def randPoint (sx sy : ℝ) : ℝ × ℝ :=
  (randFloat (sx + 1.3) (sy + 1.3), randFloat (sx + 2.1) (sy + 2.1))

/-- Shader `pointToPosition`: smoothstep the latitude component, then mix the
point into the viewport bounds window. -/
def pointToPosition (u : WindUniforms) (px py : ℝ) : ℝ × ℝ :=
  let py2 := glslSmoothstep 0 1 py
  (glslMix u.viewportBounds.x u.viewportBounds.z px,
   glslMix u.viewportBounds.y u.viewportBounds.w py2)

/-- Shader `isPositionInBounds(position, bounds)`. -/
def isPositionInBounds (px py : ℝ) (b : Vec4) : Prop :=
  let lng := wrapLongitudeMinGl px b.x
  b.x ≤ lng ∧ lng ≤ b.z ∧ b.y ≤ py ∧ py ≤ b.w

/-- Shader `getUV(pos)` (normalised field-space coordinate). -/
def getUV (u : WindUniforms) (px py : ℝ) : ℝ × ℝ :=
  ((px - u.bounds.x) / (u.bounds.z - u.bounds.x),
   (py - u.bounds.w) / (u.bounds.y - u.bounds.w))

/-- Shader `rasterHasValues(values)`. -/
def rasterHasValues (u : WindUniforms) (v : Vec4) : Prop :=
  if u.imageUnscale.1 < u.imageUnscale.2 then 1 ≤ v.w else ¬glslIsNaN v.x

/-- Shader `rasterGetValues(colour)`. -/
def rasterGetValues (u : WindUniforms) (v : Vec4) : ℝ × ℝ :=
  if u.imageUnscale.1 < u.imageUnscale.2 then
    (glslMix u.imageUnscale.1 u.imageUnscale.2 v.x,
     glslMix u.imageUnscale.1 u.imageUnscale.2 v.y)
  else (v.x, v.y)

/-- Shader `updatedPosition(position, speed)` with the Mercator distortion
factor `cos(radians(position.y))` applied to the north-south component. -/
def updatedPosition (px py sx sy : ℝ) : ℝ × ℝ :=
  let distortion := Real.cos (py * (Real.pi / 180))
  (px + sx, py + sy * distortion)

/-- The shader `main` of the transform-feedback vertex stage, as a function of
the uniforms, the wind texture (an abstract sampler `uv ↦ vec4`), the vertex id
and the source position's `xy`. `none` models the `particleAge > 0` early
return, which leaves the output varying unassigned (that branch is dead in the
pipeline because the transform is run with `vertexCount = numParticles`). -/
def mainTransform (u : WindUniforms) (tex : ℝ → ℝ → Vec4) (vertexID : ℕ)
    (srcX srcY : ℝ) : Option (ℝ × ℝ) :=
  let particleIndex := glslMod (vertexID : ℝ) u.numParticles
  let particleAge : ℝ := (⌊(vertexID : ℝ) / u.numParticles⌋ : ℝ)
  if 0 < particleAge then none
  else if srcX = 0 ∧ srcY = 0 then
    let s := particleIndex * u.seed / u.numParticles
    let p := randPoint s s
    let pos := pointToPosition u p.1 p.2
    some (wrapLongitudeGl pos.1, pos.2)
  else if 1 < u.viewportZoomChangeFactor ∧
      1 ≤ glslMod particleIndex u.viewportZoomChangeFactor then
    some (0, 0)
  else if |glslMod particleIndex (u.maxAge + 2) - glslMod u.time (u.maxAge + 2)| < 1 then
    some (0, 0)
  else if ¬isPositionInBounds srcX srcY u.bounds then
    some (srcX, srcY)
  else if ¬isPositionInBounds srcX srcY u.viewportBounds then
    some (0, 0)
  else
    let uv := getUV u srcX srcY
    let windColour := tex uv.1 uv.2
    if ¬rasterHasValues u windColour then some (0, 0)
    else
      let speed := rasterGetValues u windColour
      let np := updatedPosition srcX srcY (speed.1 * u.speedFactor) (speed.2 * u.speedFactor)
      some (wrapLongitudeGl np.1, np.2)

/-! ### Host-side per-tick computations (`_runTransformFeedback`) -/

/-- `wrapBounds(bounds)` from `WindParticleLayer.ts`; input and output are
`[west/minLng, south/minLat, east/maxLng, north/maxLat]`. -/
def wrapBoundsTS (b : Vec4) : Vec4 :=
  let minLng := if b.z - b.x < 360 then wrapLongitudeTS b.x none else -180
  let maxLng := if b.z - b.x < 360 then wrapLongitudeTS b.z (some minLng) else 180
  ⟨minLng, max b.y (-90), maxLng, min b.w 90⟩

/-- `2 ** ((previousViewportZoom - viewport.zoom) * 4)` from
`_runTransformFeedback`. -/
def viewportZoomChangeFactorOf (previousZoom zoom : ℝ) : ℝ :=
  (2 : ℝ) ^ ((previousZoom - zoom) * 4)

/-- The one-argument TS wrap always lands in `[-180, 180)`. -/
lemma wrapLongitudeTS_none_mem (x : ℝ) :
    -180 ≤ wrapLongitudeTS x none ∧ wrapLongitudeTS x none < 180 := by
  obtain ⟨h0, h1⟩ := moduloTS_mem (x := x + 180) (y := 360) (by norm_num)
  simp only [wrapLongitudeTS]
  constructor <;> linarith

/-- The two-argument TS wrap in terms of the one-argument form. -/
lemma wrapLongitudeTS_some_eq (x m : ℝ) :
    wrapLongitudeTS x (some m) =
      (if wrapLongitudeTS x none < m then wrapLongitudeTS x none + 360
       else wrapLongitudeTS x none) := rfl

lemma glslMod_eq_self {x y : ℝ} (h0 : 0 ≤ x) (h1 : x < y) : glslMod x y = x := by
  have hy : 0 < y := lt_of_le_of_lt h0 h1
  have : ⌊x / y⌋ = 0 := by
    rw [Int.floor_eq_zero_iff, Set.mem_Ico]
    exact ⟨div_nonneg h0 hy.le, (div_lt_one hy).mpr h1⟩
  simp [glslMod, this]

lemma wrapLongitudeGl_eq_self {x : ℝ} (h0 : -180 ≤ x) (h1 : x < 180) :
    wrapLongitudeGl x = x := by
  rw [wrapLongitudeGl, glslMod_eq_self (by linarith) (by linarith)]
  ring

/-- `glslMod` lands in `[0, y)` for positive `y`. -/
lemma glslModTS_mem {x y : ℝ} (hy : 0 < y) : 0 ≤ glslMod x y ∧ glslMod x y < y := by
  have h1 : (⌊x / y⌋ : ℝ) ≤ x / y := Int.floor_le _
  have h2 : x / y < (⌊x / y⌋ : ℝ) + 1 := Int.lt_floor_add_one _
  have hx : y * (x / y) = x := by field_simp
  constructor
  · have := mul_le_mul_of_nonneg_left h1 hy.le
    rw [glslMod]
    nlinarith
  · have := mul_lt_mul_of_pos_left h2 hy
    rw [glslMod]
    nlinarith

/-- The GLSL one-argument wrap always lands in `[-180, 180)`. -/
lemma wrapLongitudeGl_mem (x : ℝ) :
    -180 ≤ wrapLongitudeGl x ∧ wrapLongitudeGl x < 180 := by
  obtain ⟨h0, h1⟩ := glslModTS_mem (x := x + 180) (y := 360) (by norm_num)
  rw [wrapLongitudeGl]
  constructor <;> linarith

/-! ### Claim C5 -/

/-- Claim C5: both implementations of `wrapLongitude` — the TypeScript one in
`WindParticleLayer.ts` and the GLSL one in the transform shader — are
idempotent in their one-argument form, their result always lies in
`[-180, 180)`, and when a minimum longitude is supplied and the wrapped value
falls below it, 360 is added. -/
theorem wrapLongitudeTS_idempotent_range_min :
    ∀ x : ℝ, wrapLongitudeTS (wrapLongitudeTS x none) none = wrapLongitudeTS x none ∧
      -180 ≤ wrapLongitudeTS x none ∧ wrapLongitudeTS x none < 180 ∧
      (∀ m : ℝ, wrapLongitudeTS x (some m) =
        (if wrapLongitudeTS x none < m then wrapLongitudeTS x none + 360
         else wrapLongitudeTS x none)) ∧
      wrapLongitudeGl (wrapLongitudeGl x) = wrapLongitudeGl x ∧
      -180 ≤ wrapLongitudeGl x ∧ wrapLongitudeGl x < 180 ∧
      ∀ m : ℝ, wrapLongitudeMinGl x m =
        (if wrapLongitudeGl x < m then wrapLongitudeGl x + 360 else wrapLongitudeGl x) := by
  intro x
  obtain ⟨hmem0, hmem1⟩ := wrapLongitudeTS_none_mem x
  obtain ⟨hg0, hg1⟩ := wrapLongitudeGl_mem x
  refine ⟨?_, hmem0, hmem1, fun m => wrapLongitudeTS_some_eq x m,
    wrapLongitudeGl_eq_self hg0 hg1, hg0, hg1, fun m => rfl⟩
  conv_lhs => rw [wrapLongitudeTS]
  rw [moduloTS_eq_self (by norm_num) (by linarith) (by linarith)]
  ring

/-! ### Claim C6 -/

/-- Claim C6 counterexample: `wrapBounds([0, 100, 10, 110])` returns a minimum
latitude of 100, which does not lie in `[-90, 90]` — the south edge is only
clamped from below (`max(south, -90)`), not into the interval. -/
theorem wrapBoundsTS_lat_not_clamped_into_range :
    (wrapBoundsTS ⟨0, 100, 10, 110⟩).y = 100 ∧
      ¬((wrapBoundsTS ⟨0, 100, 10, 110⟩).y ≤ 90) := by
  constructor
  · simp only [wrapBoundsTS]
    norm_num
  · simp only [wrapBoundsTS]
    norm_num

/-- Claim C6 (amended): for bounds spanning less than 360° of longitude the
west edge is wrapped freely and the east edge relative to it, giving a valid
non-self-overlapping interval `minLng ≤ maxLng < minLng + 360`; otherwise the
longitudes collapse to `[-180, 180]`. The south latitude is clamped from below
at -90 and the north latitude from above at 90 (both returned latitudes lie in
`[-90, 90]` only under the additional assumptions `south ≤ 90` and
`-90 ≤ north`). -/
theorem wrapBoundsTS_amended (b : Vec4) :
    (b.z - b.x < 360 →
      (wrapBoundsTS b).x = wrapLongitudeTS b.x none ∧
      (wrapBoundsTS b).z = wrapLongitudeTS b.z (some (wrapLongitudeTS b.x none)) ∧
      (wrapBoundsTS b).x ≤ (wrapBoundsTS b).z ∧
      (wrapBoundsTS b).z < (wrapBoundsTS b).x + 360) ∧
    (¬(b.z - b.x < 360) → (wrapBoundsTS b).x = -180 ∧ (wrapBoundsTS b).z = 180) ∧
    (-90 ≤ (wrapBoundsTS b).y ∧ (wrapBoundsTS b).w ≤ 90) ∧
    (b.y ≤ 90 → (wrapBoundsTS b).y ≤ 90) ∧
    (-90 ≤ b.w → -90 ≤ (wrapBoundsTS b).w) := by
  refine ⟨?_, ?_, ⟨le_max_right _ _, min_le_right _ _⟩, ?_, ?_⟩
  · intro h
    obtain ⟨hm0, hm1⟩ := wrapLongitudeTS_none_mem b.x
    obtain ⟨hw0, hw1⟩ := wrapLongitudeTS_none_mem b.z
    have hx : (wrapBoundsTS b).x = wrapLongitudeTS b.x none := by
      simp [wrapBoundsTS, if_pos h]
    have hz : (wrapBoundsTS b).z = wrapLongitudeTS b.z (some (wrapLongitudeTS b.x none)) := by
      simp [wrapBoundsTS, if_pos h]
    refine ⟨hx, hz, ?_, ?_⟩ <;> rw [hx, hz, wrapLongitudeTS_some_eq] <;> split <;> linarith
  · intro h
    constructor
    · simp [wrapBoundsTS, if_neg h]
    · simp [wrapBoundsTS, if_neg h]
  · intro h
    simp only [wrapBoundsTS]
    exact max_le h (by norm_num)
  · intro h
    simp only [wrapBoundsTS]
    exact le_min h (by norm_num)

/-- Claim C6 witness: the amended theorem applied to the concrete bounds
`[0, -10, 10, 10]`. -/
theorem wrapBoundsTS_amended_witness :
    (wrapBoundsTS ⟨0, -10, 10, 10⟩).x = wrapLongitudeTS (0 : ℝ) none ∧
      (wrapBoundsTS ⟨0, -10, 10, 10⟩).x ≤ (wrapBoundsTS ⟨0, -10, 10, 10⟩).z ∧
      (wrapBoundsTS ⟨0, -10, 10, 10⟩).z < (wrapBoundsTS ⟨0, -10, 10, 10⟩).x + 360 ∧
      (wrapBoundsTS ⟨0, -10, 10, 10⟩).y ≤ 90 ∧
      -90 ≤ (wrapBoundsTS ⟨0, -10, 10, 10⟩).w := by
  have h := wrapBoundsTS_amended ⟨0, -10, 10, 10⟩
  obtain ⟨h1, _, _, h4, h5⟩ := h
  obtain ⟨ha, _, hc, hd⟩ := h1 (by norm_num)
  exact ⟨ha, hc, hd, h4 (by norm_num), h5 (by norm_num)⟩

/-! ### GLSL helper lemmas -/

lemma glslFract_mem (x : ℝ) : 0 ≤ glslFract x ∧ glslFract x < 1 := by
  have h : glslFract x = Int.fract x := rfl
  rw [h]
  exact ⟨Int.fract_nonneg x, Int.fract_lt_one x⟩

lemma glslMod_zero (y : ℝ) : glslMod 0 y = 0 := by
  simp [glslMod]

lemma floor_natCast_div_eq_zero {v n : ℕ} (h : v < n) : ⌊(v : ℝ) / (n : ℝ)⌋ = 0 := by
  have hn0 : 0 < n := by omega
  have hn : (0 : ℝ) < n := by exact_mod_cast hn0
  rw [Int.floor_eq_zero_iff, Set.mem_Ico]
  refine ⟨div_nonneg (by positivity) hn.le, (div_lt_one hn).mpr ?_⟩
  exact_mod_cast h

lemma glslMod_natCast_of_lt {v n : ℕ} (h : v < n) :
    glslMod (v : ℝ) (n : ℝ) = (v : ℝ) :=
  glslMod_eq_self (by positivity) (by exact_mod_cast h)

lemma glslMod_natCast (v k : ℕ) (hk : 0 < k) :
    glslMod (v : ℝ) (k : ℝ) = ((v % k : ℕ) : ℝ) := by
  have hk' : (0 : ℝ) < k := by exact_mod_cast hk
  have hmod : v % k < k := Nat.mod_lt v hk
  have hdm : k * (v / k) + v % k = v := Nat.div_add_mod v k
  have hle : k * (v / k) ≤ v := by omega
  have hlt : v < k * (v / k) + k := by omega
  have hcast : (((v / k : ℕ) : ℤ) : ℝ) = ((v / k : ℕ) : ℝ) := Int.cast_natCast _
  have hfl : ⌊(v : ℝ) / (k : ℝ)⌋ = ((v / k : ℕ) : ℤ) := by
    rw [Int.floor_eq_iff]
    constructor
    · rw [hcast, le_div_iff₀ hk']
      exact_mod_cast Nat.div_mul_le_self v k
    · rw [hcast, div_lt_iff₀ hk']
      have hlt' : v < (v / k + 1) * k := by
        calc v = k * (v / k) + v % k := hdm.symm
        _ < k * (v / k) + k := by omega
        _ = (v / k + 1) * k := by ring
      exact_mod_cast hlt'
  rw [glslMod, hfl, hcast]
  have : (k : ℝ) * ((v / k : ℕ) : ℝ) + ((v % k : ℕ) : ℝ) = (v : ℝ) := by exact_mod_cast hdm
  linarith

lemma glslSmoothstep01_mem (x : ℝ) :
    0 ≤ glslSmoothstep 0 1 x ∧ glslSmoothstep 0 1 x ≤ 1 := by
  rw [glslSmoothstep]
  have h0 : 0 ≤ glslClamp ((x - 0) / (1 - 0)) 0 1 := le_min (le_max_right _ _) (by norm_num)
  have h1 : glslClamp ((x - 0) / (1 - 0)) 0 1 ≤ 1 := min_le_right _ _
  set t := glslClamp ((x - 0) / (1 - 0)) 0 1
  have key : 0 ≤ (1 - t) * (1 - t) * (1 + 2 * t) :=
    mul_nonneg (mul_nonneg (by linarith) (by linarith)) (by linarith)
  constructor
  · nlinarith
  · nlinarith [key]

lemma glslMix_mem {a b t : ℝ} (hab : a ≤ b) (h0 : 0 ≤ t) (h1 : t ≤ 1) :
    a ≤ glslMix a b t ∧ glslMix a b t ≤ b := by
  rw [glslMix]
  constructor
  · nlinarith
  · nlinarith

lemma glslMix_lt_180 {a b t : ℝ} (ha : a < 180) (hb : b ≤ 180) (h0 : 0 ≤ t)
    (h1 : t < 1) : glslMix a b t < 180 := by
  rw [glslMix]
  nlinarith

/-! ### Claim C2 -/

/-- Claim C2 counterexample: for an upward zoom change from 0 to 0.5 the code
computes `2 ** ((previousZoom - zoom) * 4) = 2 ** (-2) = 1/4`, which is less
than 1 (so no culling occurs), whereas the claim's formula `2 ** (4 * Δzoom)`
would give 4 and predict culling. -/
theorem viewportZoomChangeFactor_zoom_in_no_culling :
    viewportZoomChangeFactorOf 0 (1 / 2) = 1 / 4 ∧
      ¬(1 < viewportZoomChangeFactorOf 0 (1 / 2)) ∧
      ((2 : ℝ) ^ (((1 / 2 : ℝ) - 0) * 4) : ℝ) = 4 := by
  have h1 : viewportZoomChangeFactorOf 0 (1 / 2) = 1 / 4 := by
    have he : ((0 : ℝ) - 1 / 2) * 4 = ((-2 : ℤ) : ℝ) := by norm_num
    rw [viewportZoomChangeFactorOf, he, Real.rpow_intCast]
    norm_num
  have h2 : ((2 : ℝ) ^ (((1 / 2 : ℝ) - 0) * 4) : ℝ) = 4 := by
    have he : ((1 / 2 : ℝ) - 0) * 4 = ((2 : ℤ) : ℝ) := by norm_num
    rw [he, Real.rpow_intCast]
    norm_num
  exact ⟨h1, by rw [h1]; norm_num, h2⟩

/-- Claim C2 (amended): the zoom-change culling factor is
`f = 2 ** (4 * (previousZoom - zoom))`, which exceeds 1 exactly when the zoom
decreased since the previous tick; for every factor uniform `f > 1`, the
advection step drops exactly those non-sentinel age-0 lanes whose index modulo
`f` falls outside the first unit (`mod(particleIndex, f) ≥ 1`), while the
other lanes behave as if the culling factor were disabled; and for `f = 4`
the dropped lanes are exactly those with index not ≡ 0 (mod 4), so 1 lane in
4 survives this culling rule. -/
theorem zoomChangeCulling_amended :
    (∀ previousZoom zoom : ℝ,
      (1 < viewportZoomChangeFactorOf previousZoom zoom ↔ zoom < previousZoom)) ∧
    (∀ (u : WindUniforms) (tex : ℝ → ℝ → Vec4) (n v : ℕ) (srcX srcY : ℝ),
      u.numParticles = (n : ℝ) → v < n → 1 < u.viewportZoomChangeFactor →
      ¬(srcX = 0 ∧ srcY = 0) →
      (1 ≤ glslMod (v : ℝ) u.viewportZoomChangeFactor →
        mainTransform u tex v srcX srcY = some (0, 0)) ∧
      (¬1 ≤ glslMod (v : ℝ) u.viewportZoomChangeFactor → ∀ f' : ℝ, ¬(1 < f') →
        mainTransform u tex v srcX srcY =
          mainTransform { u with viewportZoomChangeFactor := f' } tex v srcX srcY)) ∧
    (∀ v : ℕ, 1 ≤ glslMod (v : ℝ) (4 : ℝ) ↔ v % 4 ≠ 0) := by
  refine ⟨?_, ?_, ?_⟩
  · intro previousZoom zoom
    rw [viewportZoomChangeFactorOf,
      Real.one_lt_rpow_iff_of_pos (by norm_num : (0 : ℝ) < 2)]
    constructor
    · rintro (⟨-, h⟩ | ⟨h, -⟩)
      · nlinarith
      · norm_num at h
    · intro h
      exact Or.inl ⟨by norm_num, by nlinarith⟩
  · intro u tex n v srcX srcY hn hv hf hsent
    have hage : ¬(0 : ℝ) < (⌊(v : ℝ) / u.numParticles⌋ : ℝ) := by
      rw [hn, floor_natCast_div_eq_zero hv]
      norm_num
    have hidx : glslMod (v : ℝ) u.numParticles = (v : ℝ) := by
      rw [hn]; exact glslMod_natCast_of_lt hv
    constructor
    · intro hmod
      simp only [mainTransform, hidx]
      rw [if_neg hage, if_neg hsent, if_pos ⟨hf, hmod⟩]
    · intro hmod f' hf'
      have hzL : ¬(1 < u.viewportZoomChangeFactor ∧
          (1 : ℝ) ≤ glslMod (v : ℝ) u.viewportZoomChangeFactor) :=
        fun hc => hmod hc.2
      have hzR : ¬((1 : ℝ) < f' ∧ (1 : ℝ) ≤ glslMod (v : ℝ) f') :=
        fun hc => hf' hc.1
      simp only [mainTransform, hidx]
      rw [if_neg hage, if_neg hage, if_neg hsent, if_neg hsent, if_neg hzL, if_neg hzR]
      rfl
  · intro v
    have hmod4 : glslMod (v : ℝ) (4 : ℝ) = ((v % 4 : ℕ) : ℝ) := by
      have h4 : ((4 : ℕ) : ℝ) = (4 : ℝ) := by norm_num
      rw [← h4]
      exact glslMod_natCast v 4 (by norm_num)
    rw [hmod4]
    constructor
    · intro h h0
      rw [h0] at h
      norm_num at h
    · intro h
      have h1 : 1 ≤ v % 4 := Nat.one_le_iff_ne_zero.mpr h
      exact_mod_cast h1

/-- Claim C2 witness: the amended theorem applied to a concrete downward zoom
change and to the concrete lane 1 (dropped, since 1 mod 4 ≥ 1) among `n = 8`
particles with factor 4. -/
theorem zoomChangeCulling_amended_witness :
    (1 < viewportZoomChangeFactorOf 1 0 ↔ (0 : ℝ) < 1) ∧
      mainTransform
        ⟨8, 10, 1, 0, 0, ⟨-180, -90, 180, 90⟩, 4, (0, 0), ⟨-180, -90, 180, 90⟩⟩
        (fun _ _ => ⟨0, 0, 0, 0⟩) 1 20 30 = some (0, 0) := by
  constructor
  · exact zoomChangeCulling_amended.1 1 0
  · refine (zoomChangeCulling_amended.2.1
      ⟨8, 10, 1, 0, 0, ⟨-180, -90, 180, 90⟩, 4, (0, 0), ⟨-180, -90, 180, 90⟩⟩
      (fun _ _ => ⟨0, 0, 0, 0⟩) 8 1 20 30 rfl (by norm_num) (by norm_num)
      (by norm_num)).1 ?_
    exact (zoomChangeCulling_amended.2.2 1).mpr (by norm_num)

/-! ### Claim C4 -/

/-- Uniforms exhibiting the Claim C4 counterexample: one particle, `maxAge` 3,
`time` 0, no zoom change, full-globe field bounds. -/
def c4CexUniforms : WindUniforms :=
  ⟨1, 3, 0, 0, 0, ⟨-180, -90, 180, 90⟩, 0, (0, 0), ⟨-180, -90, 180, 90⟩⟩

/-- An arbitrary wind texture for the Claim C4 counterexample. -/
def c4CexTex : ℝ → ℝ → Vec4 := fun _ _ => ⟨0, 0, 0, 0⟩

/-- Claim C4 counterexample: the particle at `(0, 95)` is outside the field
bounds (latitude 95 > 90) and is not the sentinel, yet the advection step
drops it to `(0, 0)` instead of freezing it, because the age-cycling culling
rule fires before the out-of-field-bounds check. -/
theorem mainTransform_age_cull_overrides_bounds_freeze :
    mainTransform c4CexUniforms c4CexTex 0 0 95 = some (0, 0) ∧
      ¬isPositionInBounds 0 95 c4CexUniforms.bounds ∧
      ¬((0 : ℝ) = 0 ∧ (95 : ℝ) = 0) := by
  refine ⟨?_, ?_, by norm_num⟩
  · norm_num [mainTransform, c4CexUniforms, glslMod_zero]
  · norm_num [isPositionInBounds, c4CexUniforms, wrapLongitudeMinGl, wrapLongitudeGl,
      glslMod_eq_self]

/-- Claim C4 (amended): an age-0 lane whose non-sentinel position lies outside
the field bounds is left identical (frozen, not advected, not dropped) by the
advection step, provided neither the zoom-change culling rule nor the
age-cycling culling rule selects the lane that tick (those two rules are
evaluated first and would drop it otherwise). -/
theorem mainTransform_bounds_freeze_amended
    (u : WindUniforms) (n v : ℕ) (srcX srcY : ℝ)
    (hn : u.numParticles = (n : ℝ)) (hv : v < n)
    (hsent : ¬(srcX = 0 ∧ srcY = 0))
    (hzoom : ¬(1 < u.viewportZoomChangeFactor ∧
      1 ≤ glslMod (v : ℝ) u.viewportZoomChangeFactor))
    (hage : ¬(|glslMod (v : ℝ) (u.maxAge + 2) - glslMod u.time (u.maxAge + 2)| < 1))
    (hout : ¬isPositionInBounds srcX srcY u.bounds) :
    ∀ tex : ℝ → ℝ → Vec4, mainTransform u tex v srcX srcY = some (srcX, srcY) := by
  intro tex
  have hage0 : ¬(0 : ℝ) < (⌊(v : ℝ) / u.numParticles⌋ : ℝ) := by
    rw [hn, floor_natCast_div_eq_zero hv]
    norm_num
  have hidx : glslMod (v : ℝ) u.numParticles = (v : ℝ) := by
    rw [hn]; exact glslMod_natCast_of_lt hv
  simp only [mainTransform, hidx]
  rw [if_neg hage0, if_neg hsent, if_neg hzoom, if_neg hage, if_pos hout]

/-- Uniforms for the Claim C4 witness (`time` 2.5 keeps the age-cycling rule
away from lane 0). -/
def c4WitnessUniforms : WindUniforms :=
  ⟨1, 3, 0, 2.5, 0, ⟨-180, -90, 180, 90⟩, 0, (0, 0), ⟨-180, -90, 180, 90⟩⟩

/-- An arbitrary wind texture for the Claim C4 witness. -/
def c4WitnessTex : ℝ → ℝ → Vec4 := fun _ _ => ⟨1, 1, 1, 1⟩

/-- Claim C4 witness: the amended freeze theorem applied to the concrete
out-of-bounds particle `(0, 95)` at tick time 2.5. -/
theorem mainTransform_bounds_freeze_amended_witness :
    mainTransform c4WitnessUniforms c4WitnessTex 0 0 95 = some (0, 95) := by
  refine mainTransform_bounds_freeze_amended c4WitnessUniforms 1 0 0 95
    (by norm_num [c4WitnessUniforms]) (by norm_num) (by norm_num) ?_ ?_ ?_ c4WitnessTex
  · norm_num [c4WitnessUniforms]
  · norm_num [c4WitnessUniforms, glslMod_zero, glslMod_eq_self, abs_of_nonneg]
  · norm_num [isPositionInBounds, c4WitnessUniforms, wrapLongitudeMinGl, wrapLongitudeGl,
      glslMod_eq_self]

/-! ### Claim C1 -/

/-- Claim C1 (amended): an age-0 lane whose source position equals the dropped
sentinel `(0,0)` is reseeded without sampling the wind texture (the result is
the same for every texture), at a pseudo-random position derived
deterministically from the per-tick seed scaled by the particle index
(`particleSeed = particleIndex * seed / numParticles`, a multiplicative
combination, not XOR), with the latitude component passed through a smoothstep
before mixing into the viewport bounds window and the longitude wrapped; the
resulting position satisfies `minLng ≤ lng ≤ maxLng` (post-wrap) and
`minLat ≤ lat ≤ maxLat` provided the viewport window satisfies
`-180 ≤ minLng < 180`, `minLng ≤ maxLng ≤ 180` and `minLat ≤ maxLat` (for
windows extending past longitude 180 the post-wrap longitude can escape below
`minLng`). -/
theorem mainTransform_reseed_amended
    (u : WindUniforms) (n v : ℕ) (srcX srcY : ℝ)
    (hn : u.numParticles = (n : ℝ)) (hv : v < n)
    (hx : srcX = 0) (hy : srcY = 0)
    (hb1 : -180 ≤ u.viewportBounds.x) (hb2 : u.viewportBounds.x < 180)
    (hb3 : u.viewportBounds.x ≤ u.viewportBounds.z) (hb4 : u.viewportBounds.z ≤ 180)
    (hb5 : u.viewportBounds.y ≤ u.viewportBounds.w) :
    ∃ p : ℝ × ℝ, (∀ tex : ℝ → ℝ → Vec4, mainTransform u tex v srcX srcY = some p) ∧
      u.viewportBounds.x ≤ p.1 ∧ p.1 ≤ u.viewportBounds.z ∧
      u.viewportBounds.y ≤ p.2 ∧ p.2 ≤ u.viewportBounds.w := by
  subst hx hy
  have hage0 : ¬(0 : ℝ) < (⌊(v : ℝ) / u.numParticles⌋ : ℝ) := by
    rw [hn, floor_natCast_div_eq_zero hv]
    norm_num
  set s := glslMod (v : ℝ) u.numParticles * u.seed / u.numParticles with hs
  set px := (randPoint s s).1 with hpx
  set py := (randPoint s s).2 with hpy
  have hpx0 : 0 ≤ px ∧ px < 1 := by
    rw [hpx, randPoint, randFloat]
    exact glslFract_mem _
  have hss : 0 ≤ glslSmoothstep 0 1 py ∧ glslSmoothstep 0 1 py ≤ 1 :=
    glslSmoothstep01_mem py
  have hlng := glslMix_mem (a := u.viewportBounds.x) (b := u.viewportBounds.z)
    hb3 hpx0.1 hpx0.2.le
  have hlng180 : glslMix u.viewportBounds.x u.viewportBounds.z px < 180 :=
    glslMix_lt_180 hb2 hb4 hpx0.1 hpx0.2
  have hwrap : wrapLongitudeGl (glslMix u.viewportBounds.x u.viewportBounds.z px) =
      glslMix u.viewportBounds.x u.viewportBounds.z px :=
    wrapLongitudeGl_eq_self (by linarith [hlng.1]) hlng180
  have hlat := glslMix_mem (a := u.viewportBounds.y) (b := u.viewportBounds.w)
    hb5 hss.1 hss.2
  refine ⟨(wrapLongitudeGl (glslMix u.viewportBounds.x u.viewportBounds.z px),
    glslMix u.viewportBounds.y u.viewportBounds.w (glslSmoothstep 0 1 py)), ?_, ?_, ?_, ?_, ?_⟩
  · intro tex
    simp only [mainTransform, pointToPosition]
    rw [if_neg hage0, if_pos ⟨trivial, trivial⟩]
  · rw [hwrap]; exact hlng.1
  · rw [hwrap]; exact hlng.2
  · exact hlat.1
  · exact hlat.2

/-- Uniforms for the Claim C1 witness: one particle over the full globe. -/
def c1WitnessUniforms : WindUniforms :=
  ⟨1, 50, 1, 0, 0.5, ⟨-180, -90, 180, 90⟩, 0, (0, 0), ⟨-180, -90, 180, 90⟩⟩

/-- Claim C1 witness: the amended reseed theorem applied to a concrete
single-particle configuration over the full-globe viewport window. -/
theorem mainTransform_reseed_amended_witness :
    ∃ p : ℝ × ℝ, (∀ tex : ℝ → ℝ → Vec4,
        mainTransform c1WitnessUniforms tex 0 0 0 = some p) ∧
      c1WitnessUniforms.viewportBounds.x ≤ p.1 ∧
      p.1 ≤ c1WitnessUniforms.viewportBounds.z ∧
      c1WitnessUniforms.viewportBounds.y ≤ p.2 ∧
      p.2 ≤ c1WitnessUniforms.viewportBounds.w :=
  mainTransform_reseed_amended c1WitnessUniforms 1 0 0 0
    (by norm_num [c1WitnessUniforms]) (by norm_num) rfl rfl
    (by norm_num [c1WitnessUniforms]) (by norm_num [c1WitnessUniforms])
    (by norm_num [c1WitnessUniforms]) (by norm_num [c1WitnessUniforms])
    (by norm_num [c1WitnessUniforms])

/-- Uniforms for the Claim C1 counterexample: two particles, a viewport window
`[170, 0, 190, 10]` straddling the antimeridian, and a per-tick seed chosen so
that lane 1's pseudo-random draw is `fract(sin(77π/2) * 43758.5453) = 0.5453`.
-/
def c1CexUniforms : WindUniforms :=
  ⟨2, 50, 1, 0, 77 * Real.pi * 2500 / 228057 - 13 / 5, ⟨170, 0, 190, 10⟩, 0,
    (0, 0), ⟨-180, -90, 180, 90⟩⟩

/-- An arbitrary wind texture for the Claim C1 counterexample. -/
def c1CexTex : ℝ → ℝ → Vec4 := fun _ _ => ⟨0, 0, 0, 0⟩

/-- Claim C1 counterexample: for the viewport bounds window
`[minLng, minLat, maxLng, maxLat] = [170, 0, 190, 10]` there is a seed for
which the reseeded, post-wrap longitude is `-179.094 < 170 = minLng`, refuting
`minLng ≤ lng` as claimed; the lane's pre-wrap longitude `180.906` lies inside
the window, but the final `wrapLongitude` maps it to `[-180, 180)`. -/
theorem mainTransform_reseed_escapes_window :
    Option.map Prod.fst (mainTransform c1CexUniforms c1CexTex 1 0 0) =
      some (-179.094) ∧
      c1CexUniforms.viewportBounds.x = 170 ∧ (-179.094 : ℝ) < 170 := by
  refine ⟨?_, rfl, by norm_num⟩
  have hage0 : ¬(0 : ℝ) < (⌊((1 : ℕ) : ℝ) / c1CexUniforms.numParticles⌋ : ℝ) := by
    have h2 : c1CexUniforms.numParticles = ((2 : ℕ) : ℝ) := by norm_num [c1CexUniforms]
    rw [h2]
    have h1 : ((1 : ℕ) : ℝ) = ((1 : ℕ) : ℝ) := rfl
    rw [floor_natCast_div_eq_zero (by norm_num : (1 : ℕ) < 2)]
    norm_num
  have hidx : glslMod ((1 : ℕ) : ℝ) c1CexUniforms.numParticles = 1 := by
    have h2 : c1CexUniforms.numParticles = (2 : ℝ) := rfl
    rw [h2]
    push_cast
    exact glslMod_eq_self (by norm_num) (by norm_num)
  -- the lane's x-component pseudo-random draw evaluates exactly
  have hseedx : 1 * c1CexUniforms.seed / c1CexUniforms.numParticles + 1.3 =
      77 * Real.pi * 1250 / 228057 := by
    have hseed : c1CexUniforms.seed = 77 * Real.pi * 2500 / 228057 - 13 / 5 := rfl
    have hnp : c1CexUniforms.numParticles = (2 : ℝ) := rfl
    rw [hseed, hnp]
    norm_num
    ring
  have hdot : 77 * Real.pi * 1250 / 228057 * 12.9898 +
      77 * Real.pi * 1250 / 228057 * 78.233 =
      Real.pi / 2 + ((19 : ℕ) : ℝ) * (2 * Real.pi) := by
    push_cast
    norm_num
    ring
  have hsin : Real.sin (Real.pi / 2 + ((19 : ℕ) : ℝ) * (2 * Real.pi)) = 1 := by
    rw [Real.sin_add_nat_mul_two_pi, Real.sin_pi_div_two]
  have hfract : glslFract ((1 : ℝ) * 43758.5453) = 0.5453 := by
    rw [glslFract]
    have : ⌊(1 : ℝ) * 43758.5453⌋ = 43758 := by
      rw [Int.floor_eq_iff]; norm_num
    rw [this]
    norm_num
  have hpx : (randPoint (1 * c1CexUniforms.seed / c1CexUniforms.numParticles)
      (1 * c1CexUniforms.seed / c1CexUniforms.numParticles)).1 = 0.5453 := by
    rw [randPoint, randFloat, hseedx, hdot, hsin, hfract]
  have hmix : glslMix c1CexUniforms.viewportBounds.x c1CexUniforms.viewportBounds.z
      (0.5453 : ℝ) = 180.906 := by
    have hbx : c1CexUniforms.viewportBounds.x = (170 : ℝ) := rfl
    have hbz : c1CexUniforms.viewportBounds.z = (190 : ℝ) := rfl
    rw [hbx, hbz, glslMix]
    norm_num
  have hwrap : wrapLongitudeGl (180.906 : ℝ) = -179.094 := by
    rw [wrapLongitudeGl, glslMod]
    have : ⌊(180.906 + 180 : ℝ) / 360⌋ = 1 := by
      rw [Int.floor_eq_iff]; norm_num
    rw [this]
    norm_num
  simp only [mainTransform, pointToPosition, hidx]
  rw [if_neg hage0, if_pos ⟨trivial, trivial⟩, hpx, hmix, hwrap]
  rfl

/-! ### The per-tick transform-feedback step (`_runTransformFeedback`) -/

/-- The buffer-level state touched by `_runTransformFeedback`: the two
position buffers (flat float arrays, 3 floats per slot), and the previous
tick's viewport zoom and timeline time. -/
structure TFState where
  initialized : Bool
  sourcePositions : ℕ → ℝ
  targetPositions : ℕ → ℝ
  previousViewportZoom : ℝ
  previousTime : ℝ

/-- The transform-feedback run: vertices `0 .. numParticles - 1` of the
transform shader write the first `numParticles * 3` floats of the target
buffer; the rest of the target buffer is untouched. The `z` varying is never
assigned by the shader (written as 0 here); a `none` shader result (the dead
`particleAge > 0` branch) likewise leaves the slot's previous content. -/
def transformRun (u : WindUniforms) (tex : ℝ → ℝ → Vec4) (numParticles : ℕ)
    (src tgt : ℕ → ℝ) : ℕ → ℝ :=
  fun i =>
    if i < numParticles * 3 then
      match mainTransform u tex (i / 3) (src (i / 3 * 3)) (src (i / 3 * 3 + 1)) with
      | some p => if i % 3 = 0 then p.1 else if i % 3 = 1 then p.2 else 0
      | none => tgt i
    else tgt i

/-- The trail-shift bulk copy (`encoder.copyBufferToBuffer`): float offsets
are the byte offsets of the source divided by 4 — destination offset
`numParticles * 3` floats, size `numParticles * (maxAge - 1) * 3` floats
(`numAgedInstances * 4 * 3` bytes). -/
def shiftCopy (numParticles maxAge : ℕ) (src tgt : ℕ → ℝ) : ℕ → ℝ :=
  fun i =>
    if numParticles * 3 ≤ i ∧ i < numParticles * 3 + numParticles * (maxAge - 1) * 3 then
      src (i - numParticles * 3)
    else tgt i

/-- `_runTransformFeedback`, as a function of the state, the layer props
(`numParticles`, `maxAge`, `speedFactor`, `imageUnscale`, `bounds`), the
viewport (raw bounds, zoom), the timeline time, the per-tick `Math.random()`
seed, and the wind texture. Returns the state unchanged when uninitialized or
when the timeline time equals the previous tick's time; otherwise runs the
transform, performs the trail-shift copy into the target buffer, swaps the
buffers and records the tick's zoom and time. (`viewportZoomChangeFactor || 0`
and `viewportBounds || [0,0,0,0]` are identities here: the bounds array is
always truthy, and the numeric fallback only applies at value 0, where it is
the identity.) -/
def runTransformFeedback (s : TFState) (numParticles maxAge : ℕ)
    (speedFactor : ℝ) (imageUnscale : ℝ × ℝ) (bounds : Vec4)
    (viewportRawBounds : Vec4) (zoom time seed : ℝ) (tex : ℝ → ℝ → Vec4) : TFState :=
  if s.initialized = false then s
  else if time = s.previousTime then s
  else
    let viewportBounds := wrapBoundsTS viewportRawBounds
    let viewportZoomChangeFactor := viewportZoomChangeFactorOf s.previousViewportZoom zoom
    let currentSpeedFactor := speedFactor * 0.01 / ((2 : ℝ) ^ zoom)
    let u : WindUniforms :=
      ⟨(numParticles : ℝ), (maxAge : ℝ), currentSpeedFactor, time, seed,
        viewportBounds, viewportZoomChangeFactor, imageUnscale, bounds⟩
    let tgt1 := transformRun u tex numParticles s.sourcePositions s.targetPositions
    let tgt2 := shiftCopy numParticles maxAge s.sourcePositions tgt1
    { initialized := s.initialized
      sourcePositions := tgt2
      targetPositions := s.sourcePositions
      previousViewportZoom := zoom
      previousTime := time }

/-! ### Claim C3 -/

/-- Claim C3: after one advection/trail-shift step, for every generation
`g ∈ [1, maxAge - 1]`, lane `p < numParticles` and component `c < 3`, the new
state (the post-swap source buffer) holds at slot `(g, p)` exactly the old
state's slot `(g - 1, p)`; the shift writes only the float range
`[numParticles * 3, numParticles * maxAge * 3)` — one generation-stride past
the start — so generation 0 is untouched by it; and the step swaps the
buffers (the post-step target buffer is the old source buffer). -/
theorem trailShift_generation_correct (s : TFState) (numParticles maxAge : ℕ)
    (speedFactor : ℝ) (imageUnscale : ℝ × ℝ) (bounds viewportRawBounds : Vec4)
    (zoom time seed : ℝ) (tex : ℝ → ℝ → Vec4) (g p c : ℕ)
    (hinit : s.initialized = true) (htime : time ≠ s.previousTime)
    (hg1 : 1 ≤ g) (hg2 : g < maxAge) (hp : p < numParticles) (hc : c < 3) :
    (runTransformFeedback s numParticles maxAge speedFactor imageUnscale bounds
        viewportRawBounds zoom time seed tex).sourcePositions
        ((g * numParticles + p) * 3 + c) =
      s.sourcePositions (((g - 1) * numParticles + p) * 3 + c) ∧
    (runTransformFeedback s numParticles maxAge speedFactor imageUnscale bounds
        viewportRawBounds zoom time seed tex).targetPositions = s.sourcePositions ∧
    (∀ (src tgt : ℕ → ℝ) (i : ℕ), i < numParticles * 3 →
      shiftCopy numParticles maxAge src tgt i = tgt i) := by
  have hrun : runTransformFeedback s numParticles maxAge speedFactor imageUnscale bounds
      viewportRawBounds zoom time seed tex =
      { initialized := s.initialized
        sourcePositions := shiftCopy numParticles maxAge s.sourcePositions
          (transformRun
            ⟨(numParticles : ℝ), (maxAge : ℝ),
              speedFactor * 0.01 / ((2 : ℝ) ^ zoom), time, seed,
              wrapBoundsTS viewportRawBounds,
              viewportZoomChangeFactorOf s.previousViewportZoom zoom,
              imageUnscale, bounds⟩
            tex numParticles s.sourcePositions s.targetPositions)
        targetPositions := s.sourcePositions
        previousViewportZoom := zoom
        previousTime := time } := by
    rw [runTransformFeedback, if_neg (by rw [hinit]; simp), if_neg htime]
  obtain ⟨k, rfl⟩ : ∃ k, g = k + 1 := ⟨g - 1, by omega⟩
  obtain ⟨m, rfl⟩ : ∃ m, maxAge = m + 1 := ⟨maxAge - 1, by omega⟩
  have hexp : (k + 1) * numParticles = k * numParticles + numParticles := by ring
  have hcm : numParticles * (m + 1 - 1) = m * numParticles := by
    simp [Nat.mul_comm]
  have hkm2 : (k + 1) * numParticles ≤ m * numParticles :=
    Nat.mul_le_mul_right _ (by omega)
  have h11 : (k + 1 - 1) * numParticles = k * numParticles := by simp
  have hmem : numParticles * 3 ≤ ((k + 1) * numParticles + p) * 3 + c ∧
      ((k + 1) * numParticles + p) * 3 + c <
        numParticles * 3 + numParticles * (m + 1 - 1) * 3 := by
    omega
  refine ⟨?_, by rw [hrun], fun src tgt i hi => ?_⟩
  · rw [hrun]
    show shiftCopy numParticles (m + 1) s.sourcePositions _ _ = _
    rw [shiftCopy, if_pos hmem]
    congr 1
    omega
  · rw [shiftCopy, if_neg ?_]
    rintro ⟨h1, -⟩
    omega

/-- Claim C3 witness: the generation-shift theorem applied to a concrete
2-particle, 3-generation state whose old buffer holds its own index. -/
theorem trailShift_generation_correct_witness :
    (runTransformFeedback ⟨true, fun i => (i : ℝ), fun _ => 0, 0, 0⟩ 2 3 1 (0, 0)
        ⟨-180, -90, 180, 90⟩ ⟨-180, -90, 180, 90⟩ 0 1 0 (fun _ _ => ⟨0, 0, 0, 0⟩)
        ).sourcePositions 6 = 0 := by
  have h := (trailShift_generation_correct ⟨true, fun i => (i : ℝ), fun _ => 0, 0, 0⟩ 2 3 1
    (0, 0) ⟨-180, -90, 180, 90⟩ ⟨-180, -90, 180, 90⟩ 0 1 0 (fun _ _ => ⟨0, 0, 0, 0⟩) 1 0 0
    rfl (by norm_num) (by norm_num) (by norm_num) (by norm_num) (by norm_num)).1
  simpa using h

/-! ### Claim C10 -/

/-- Claim C10: for an initialized pipeline state, invoking the step when the
timeline time equals the stored `previousTime` is a complete no-op (the state,
both buffers, `previousTime` and `previousViewportZoom` are returned
unchanged); consequently running the step twice at the same timeline time is
the same as running it once, so at most one advection step is performed per
distinct timeline time. -/
theorem runTransformFeedback_same_time_noop
    (s : TFState) (numParticles maxAge : ℕ) (speedFactor : ℝ)
    (imageUnscale : ℝ × ℝ) (bounds viewportRawBounds : Vec4)
    (zoom time seed : ℝ) (tex : ℝ → ℝ → Vec4)
    (hinit : s.initialized = true) (htime : time = s.previousTime) :
    runTransformFeedback s numParticles maxAge speedFactor imageUnscale bounds
        viewportRawBounds zoom time seed tex = s ∧
    (∀ (zoom' seed' : ℝ) (viewportRawBounds' : Vec4) (tex' : ℝ → ℝ → Vec4) (t : ℝ),
      runTransformFeedback
        (runTransformFeedback s numParticles maxAge speedFactor imageUnscale bounds
          viewportRawBounds zoom t seed tex)
        numParticles maxAge speedFactor imageUnscale bounds
        viewportRawBounds' zoom' t seed' tex' =
      runTransformFeedback s numParticles maxAge speedFactor imageUnscale bounds
        viewportRawBounds zoom t seed tex) := by
  constructor
  · rw [runTransformFeedback, if_neg (by rw [hinit]; simp), if_pos htime]
  · intro zoom' seed' viewportRawBounds' tex' t
    by_cases ht : t = s.previousTime
    · have hin : runTransformFeedback s numParticles maxAge speedFactor imageUnscale
          bounds viewportRawBounds zoom t seed tex = s := by
        rw [runTransformFeedback, if_neg (by rw [hinit]; simp), if_pos ht]
      rw [hin, runTransformFeedback, if_neg (by rw [hinit]; simp), if_pos ht]
    · set s' := runTransformFeedback s numParticles maxAge speedFactor imageUnscale
        bounds viewportRawBounds zoom t seed tex with hs'
      have hinit' : s'.initialized = true := by
        rw [hs', runTransformFeedback, if_neg (by rw [hinit]; simp), if_neg ht]
        exact hinit
      have hptime : s'.previousTime = t := by
        rw [hs', runTransformFeedback, if_neg (by rw [hinit]; simp), if_neg ht]
      rw [runTransformFeedback, if_neg (by rw [hinit']; simp), if_pos hptime.symm]

/-- Claim C10 witness: the no-op theorem applied to a concrete initialized
state at its own stored time. -/
theorem runTransformFeedback_same_time_noop_witness :
    runTransformFeedback ⟨true, fun i => (i : ℝ), fun _ => 0, 2, 5⟩ 4 3 1 (0, 0)
        ⟨-180, -90, 180, 90⟩ ⟨-180, -90, 180, 90⟩ 7 5 0 (fun _ _ => ⟨0, 0, 0, 0⟩) =
      ⟨true, fun i => (i : ℝ), fun _ => 0, 2, 5⟩ :=
  (runTransformFeedback_same_time_noop ⟨true, fun i => (i : ℝ), fun _ => 0, 2, 5⟩ 4 3 1
    (0, 0) ⟨-180, -90, 180, 90⟩ ⟨-180, -90, 180, 90⟩ 7 5 0 (fun _ _ => ⟨0, 0, 0, 0⟩)
    rfl rfl).1

/-! ### Claim C8 -/

/-- A particle state (slot position) is "dropped" when its `xy` equals the
sentinel `DROP_POSITION = (0, 0)`. -/
def isDropped (x y : ℝ) : Prop := x = 0 ∧ y = 0

/-- The draw stage's vertex-shader injection
`vDrop = float(instanceSourcePositions.xy == DROP_POSITION ||
instanceTargetPositions.xy == DROP_POSITION)`. -/
def vDropOf (sx sy tx ty : ℝ) : ℝ :=
  if (sx = 0 ∧ sy = 0) ∨ (tx = 0 ∧ ty = 0) then 1 else 0

/-- The draw stage's fragment-shader injection `if (vDrop > 0.5) discard`. -/
def fragDiscards (vDrop : ℝ) : Prop := 0.5 < vDrop

/-- `_setupTransformFeedback` allocates each position buffer as
`new Float32Array(numInstances * 3)`, i.e. every float is zero. -/
def initialPositions : ℕ → ℝ := fun _ => 0

/-- Claim C8: the freshly allocated position buffers are all zero, so every
slot never written by advection reads as the dropped sentinel `(0, 0, _)`; and
the draw stage discards a segment exactly when one of its two endpoint states
matches the sentinel (`isDropped P ↔ P.xy = (0, 0)` by definition). -/
theorem sentinel_consistency :
    (∀ i : ℕ, isDropped (initialPositions (i * 3)) (initialPositions (i * 3 + 1))) ∧
    (∀ sx sy tx ty : ℝ,
      fragDiscards (vDropOf sx sy tx ty) ↔ (isDropped sx sy ∨ isDropped tx ty)) := by
  constructor
  · intro i
    exact ⟨rfl, rfl⟩
  · intro sx sy tx ty
    rw [fragDiscards, vDropOf, isDropped, isDropped]
    split
    · rename_i h
      simp only [iff_true_intro h]
      norm_num
    · rename_i h
      simp only [iff_false_intro h]
      norm_num

/-! ### Claim C9 -/

/-- The lifecycle-relevant part of the layer state: the `initialized` flag,
the five GPU resources released by `_deleteTransformFeedback` (abstracted as
optional resource tokens), and the per-tick bookkeeping fields that teardown
leaves untouched. -/
structure LifecycleState where
  initialized : Bool
  sourcePositions : Option ℕ
  targetPositions : Option ℕ
  colors : Option ℕ
  transform : Option ℕ
  colorRampTexture : Option ℕ
  previousViewportZoom : ℝ
  previousTime : ℝ

/-- The layer props consulted by `updateState` / `_setupTransformFeedback`:
`image` is `none` while the texture is a URL string or null, `some` once it is
an actual texture token; `colorRamp` is compared by reference (token). -/
structure LayerProps where
  image : Option ℕ
  numParticles : ℝ
  maxAge : ℝ
  width : ℝ
  colorRamp : ℕ

/-- `_deleteTransformFeedback`: a no-op when not initialized; otherwise
destroys the buffers, transform and ramp texture and clears them together
with the `initialized` flag (the other state fields are untouched). Optional
chaining (`?.destroy()`) means the destruction itself cannot fail. -/
def deleteTransformFeedback (s : LifecycleState) : LifecycleState :=
  if s.initialized = false then s
  else
    { s with
      initialized := false
      sourcePositions := none
      targetPositions := none
      colors := none
      transform := none
      colorRampTexture := none }

/-- `_setupTransformFeedback`: tears down first when already initialized;
does nothing while the image is not yet a texture; otherwise allocates fresh
resources and resets the per-tick bookkeeping. -/
def setupTransformFeedback (s : LifecycleState) (p : LayerProps) : LifecycleState :=
  let s1 := if s.initialized then deleteTransformFeedback s else s
  match p.image with
  | none => s1
  | some img =>
    { initialized := true
      sourcePositions := some img
      targetPositions := some img
      colors := some img
      transform := some img
      colorRampTexture := some img
      previousViewportZoom := 0
      previousTime := 0 }

/-- `updateState`: with a zero `numParticles`, `maxAge` or `width` (falsy JS
numbers) the transform-feedback state is deleted and the method returns;
otherwise a change in `image`, `numParticles`, `maxAge`, `width` or
`colorRamp` triggers a re-setup. -/
def updateState (s : LifecycleState) (p old : LayerProps) : LifecycleState :=
  if p.numParticles = 0 ∨ p.maxAge = 0 ∨ p.width = 0 then deleteTransformFeedback s
  else if p.image ≠ old.image ∨ p.numParticles ≠ old.numParticles ∨
      p.maxAge ≠ old.maxAge ∨ p.width ≠ old.width ∨ p.colorRamp ≠ old.colorRamp then
    setupTransformFeedback s p
  else s

/-- Claim C9: a configuration update with a zero `numParticles`, `maxAge` or
`width` tears the transform-feedback state down and leaves the pipeline idle
(`initialized = false`) without failing (all operations are total); teardown
is idempotent, and calling it on a never-initialized pipeline leaves the state
unchanged. -/
theorem zeroConfig_teardown_idle :
    (∀ (s : LifecycleState) (p old : LayerProps),
      p.numParticles = 0 ∨ p.maxAge = 0 ∨ p.width = 0 →
      updateState s p old = deleteTransformFeedback s ∧
        (updateState s p old).initialized = false) ∧
    (∀ s : LifecycleState,
      deleteTransformFeedback (deleteTransformFeedback s) = deleteTransformFeedback s) ∧
    (∀ s : LifecycleState, s.initialized = false → deleteTransformFeedback s = s) := by
  refine ⟨fun s p old hzero => ?_, fun s => ?_, fun s hs => ?_⟩
  · have hupd : updateState s p old = deleteTransformFeedback s := by
      rw [updateState, if_pos hzero]
    refine ⟨hupd, ?_⟩
    rw [hupd, deleteTransformFeedback]
    split
    · assumption
    · rfl
  · have hdel : (deleteTransformFeedback s).initialized = false := by
      rw [deleteTransformFeedback]
      split
      · assumption
      · rfl
    rw [deleteTransformFeedback, if_pos hdel]
  · rw [deleteTransformFeedback, if_pos hs]

/-- Claim C9 witness: the zero-configuration theorem applied to a concrete
initialized state and a zero-width props update. -/
theorem zeroConfig_teardown_idle_witness :
    updateState ⟨true, some 1, some 2, some 3, some 4, some 5, 3, 7⟩
        ⟨some 9, 8192, 50, 0, 0⟩ ⟨some 9, 8192, 50, 1.5, 0⟩ =
      deleteTransformFeedback ⟨true, some 1, some 2, some 3, some 4, some 5, 3, 7⟩ ∧
      (updateState ⟨true, some 1, some 2, some 3, some 4, some 5, 3, 7⟩
        ⟨some 9, 8192, 50, 0, 0⟩ ⟨some 9, 8192, 50, 1.5, 0⟩).initialized = false :=
  zeroConfig_teardown_idle.1 ⟨true, some 1, some 2, some 3, some 4, some 5, 3, 7⟩
    ⟨some 9, 8192, 50, 0, 0⟩ ⟨some 9, 8192, 50, 1.5, 0⟩ (by norm_num)

end

/-! ### Colour-ramp construction (`createColorRampData`), over exact `ℚ` -/

/-- An RGBA colour stop value; the alpha channel is optional (`c[3] ?? 255`
in the source). -/
structure RampColor where
  r : ℚ
  g : ℚ
  b : ℚ
  a : Option ℚ
  deriving DecidableEq

/-- A colour-ramp stop `[position, Color]`. -/
abbrev RampStop := ℚ × RampColor

/-- JS `Math.round` (round half toward positive infinity). -/
def jsRound (x : ℚ) : ℤ := ⌊x + 1 / 2⌋

/-- The source's `c[3] ?? 255` alpha default. -/
def alphaOr255 (c : RampColor) : ℚ := c.a.getD 255

/-- The loop body's interpolated colour for a bracketing pair, with
`localT = (t - t0) / (t1 - t0)` and every channel passed through
`Math.round`. -/
def lerpStopColor (t0 : ℚ) (c0 : RampColor) (t1 : ℚ) (c1 : RampColor) (t : ℚ) :
    RampColor :=
  let localT := (t - t0) / (t1 - t0)
  { r := (jsRound (c0.r + (c1.r - c0.r) * localT) : ℚ)
    g := (jsRound (c0.g + (c1.g - c0.g) * localT) : ℚ)
    b := (jsRound (c0.b + (c1.b - c0.b) * localT) : ℚ)
    a := some (jsRound (alphaOr255 c0 + (alphaOr255 c1 - alphaOr255 c0) * localT) : ℚ) }

/-- The `for (j …) { if (t >= t0 && t <= t1) { …; break } }` scan over
consecutive sorted-stop pairs: the first bracketing pair wins, otherwise the
accumulator (seeded from the first stop's colour) is returned. -/
def scanStops (t : ℚ) : List RampStop → RampColor → RampColor
  | s0 :: s1 :: rest, c =>
    if s0.1 ≤ t ∧ t ≤ s1.1 then lerpStopColor s0.1 s0.2 s1.1 s1.2 t
    else scanStops t (s1 :: rest) c
  | _, c => c

/-- One output sample of `createColorRampData` at ramp position `t`, before
byte conversion: the scan's colour, overridden by the last stop's colour when
`t` lies beyond the last stop's position. (The source faults on an empty stop
list — `sortedStops[0]` is undefined — so the `[]` case here is a junk value
no theorem relies on.) -/
def rampColorAt : List RampStop → ℚ → RampColor
  | [], _ => ⟨0, 0, 0, none⟩
  | s0 :: rest, t =>
    let c := scanStops t (s0 :: rest) s0.2
    let lastS := (s0 :: rest).getLast (List.cons_ne_nil s0 rest)
    if lastS.1 < t then lastS.2 else c

/-- JS `Uint8Array` element conversion: truncate toward zero, then reduce
modulo 2^8. -/
def jsToUint8 (q : ℚ) : ℤ := (if 0 ≤ q then ⌊q⌋ else ⌈q⌉) % 256

/-- The four bytes stored for one output sample. -/
def rampBytesAt (l : List RampStop) (t : ℚ) : ℤ × ℤ × ℤ × ℤ :=
  let c := rampColorAt l t
  (jsToUint8 c.r, jsToUint8 c.g, jsToUint8 c.b, jsToUint8 (c.a.getD 255))

/-- Stable ascending insertion for `[...colorRamp].sort((a, b) => a[0] - b[0])`. -/
def insertStop (x : RampStop) : List RampStop → List RampStop
  | [] => [x]
  | y :: ys => if x.1 < y.1 then x :: y :: ys else y :: insertStop x ys

/-- Stable ascending sort by stop position. -/
def sortStops (l : List RampStop) : List RampStop := l.foldr insertStop []

/-- `createColorRampData(colorRamp)`: sort the stops, then produce the fixed
256-sample table with `t = i / 255`. (The source faults on an empty stop list;
here that case flows into `rampColorAt`'s junk value.) -/
def createColorRampData (stops : List RampStop) : List (ℤ × ℤ × ℤ × ℤ) :=
  (List.range 256).map fun (i : ℕ) => rampBytesAt (sortStops stops) ((i : ℚ) / 255)

/-- Strict ascending ordering of a stop list by position. -/
def StopsSorted (l : List RampStop) : Prop :=
  l.Pairwise fun u v => u.1 < v.1

instance (l : List RampStop) : Decidable (StopsSorted l) :=
  inferInstanceAs (Decidable (l.Pairwise _))

/-- In a strictly sorted stop list, every member's position is at most the
last stop's position. -/
lemma stops_le_getLast : ∀ (l : List RampStop) (hne : l ≠ []) (x : RampStop),
    StopsSorted l → x ∈ l → x.1 ≤ (l.getLast hne).1 := by
  intro l
  induction l with
  | nil => intro h; exact absurd rfl h
  | cons a r ih =>
    intro hne x hp hx
    cases r with
    | nil =>
      rw [List.mem_singleton.mp hx]
      exact le_rfl
    | cons b r' =>
      have hlast : (a :: b :: r').getLast hne = (b :: r').getLast (List.cons_ne_nil b r') :=
        List.getLast_cons (List.cons_ne_nil b r')
      rcases List.mem_cons.mp hx with rfl | hx'
      · have hmem : (b :: r').getLast (List.cons_ne_nil b r') ∈ b :: r' :=
          List.getLast_mem _
        have := (List.pairwise_cons.mp hp).1 _ hmem
        rw [hlast]
        exact this.le
      · rw [hlast]
        exact ih (List.cons_ne_nil b r') x (List.pairwise_cons.mp hp).2 hx'

/-- The scan falls through to its accumulator when `t` lies strictly below
every stop position. -/
lemma scanStops_of_forall_lt (t : ℚ) : ∀ (l : List RampStop) (c : RampColor),
    (∀ x ∈ l, t < x.1) → scanStops t l c = c := by
  intro l
  induction l with
  | nil => intro c _; rfl
  | cons a r ih =>
    intro c hlt
    cases r with
    | nil => rfl
    | cons b r' =>
      rw [scanStops, if_neg]
      · exact ih c fun x hx => hlt x (List.mem_cons_of_mem a hx)
      · rintro ⟨h1, -⟩
        exact absurd h1 (not_le.mpr (hlt a (List.mem_cons_self a _)))

/-- Interpolating at the left endpoint rounds the left colour. -/
lemma lerpStopColor_left (t0 : ℚ) (c0 : RampColor) (t1 : ℚ) (c1 : RampColor) :
    lerpStopColor t0 c0 t1 c1 t0 =
      ⟨(jsRound c0.r : ℚ), (jsRound c0.g : ℚ), (jsRound c0.b : ℚ),
        some (jsRound (alphaOr255 c0) : ℚ)⟩ := by
  simp [lerpStopColor]

/-- Interpolating at the right endpoint (with distinct stop positions) rounds
the right colour. -/
lemma lerpStopColor_right (t0 : ℚ) (c0 : RampColor) (t1 : ℚ) (c1 : RampColor)
    (h : t0 ≠ t1) :
    lerpStopColor t0 c0 t1 c1 t1 =
      ⟨(jsRound c1.r : ℚ), (jsRound c1.g : ℚ), (jsRound c1.b : ℚ),
        some (jsRound (alphaOr255 c1) : ℚ)⟩ := by
  have hne : t1 - t0 ≠ 0 := sub_ne_zero.mpr (Ne.symm h)
  simp only [lerpStopColor, div_self hne]
  norm_num

/-- The scan returns the interpolation of an adjacent bracketing pair of a
strictly sorted stop list (the earlier pairs either fail to bracket `t`, or
bracket it exactly at the shared endpoint, where the rounded interpolations
agree). -/
lemma scanStops_bracket (t : ℚ) :
    ∀ (l1 : List RampStop) (a b : RampStop) (l2 : List RampStop) (c : RampColor),
    StopsSorted (l1 ++ a :: b :: l2) → a.1 ≤ t → t ≤ b.1 →
    scanStops t (l1 ++ a :: b :: l2) c = lerpStopColor a.1 a.2 b.1 b.2 t := by
  intro l1
  induction l1 with
  | nil =>
    intro a b l2 c _ ha hb
    rw [List.nil_append, scanStops, if_pos ⟨ha, hb⟩]
  | cons x l1' ih =>
    intro a b l2 c hp ha hb
    have hp' : StopsSorted (l1' ++ a :: b :: l2) := (List.pairwise_cons.mp hp).2
    have hxrel := (List.pairwise_cons.mp hp).1
    cases l1' with
    | nil =>
      have hxa : x.1 < a.1 := hxrel a (by simp)
      simp only [List.nil_append] at hp' ih
      simp only [List.cons_append, List.nil_append]
      by_cases hbr : t ≤ a.1
      · have hta : t = a.1 := le_antisymm hbr ha
        rw [scanStops, if_pos ⟨by rw [hta]; exact hxa.le, hbr⟩, hta,
          lerpStopColor_right x.1 x.2 a.1 a.2 (ne_of_lt hxa), lerpStopColor_left]
      · rw [scanStops, if_neg]
        · exact ih a b l2 c hp' ha hb
        · rintro ⟨-, h2⟩
          exact hbr h2
    | cons z l1'' =>
      simp only [List.cons_append] at hp' ih ⊢
      have hza : z.1 < a.1 := (List.pairwise_cons.mp hp').1 a (by simp)
      rw [scanStops, if_neg]
      · exact ih a b l2 c hp' ha hb
      · rintro ⟨-, h2⟩
        exact absurd (le_trans ha h2) (not_le.mpr hza)

/-- The two-stop black-to-white demo ramp of the Claim C7 scenario. -/
def demoRampStops : List RampStop :=
  [(0, ⟨0, 0, 0, some 255⟩), (1, ⟨255, 255, 255, some 255⟩)]

/-- Claim C7: colour-ramp sampling interpolates the bracketing sorted stop
pair componentwise (alpha defaulting to 255 when a stop omits it), clamps to
the last stop's colour beyond the last stop position and to the first stop's
colour before the first stop position, yields a constant ramp for a single
stop, produces a 256-sample table, and gives `[128, 128, 128, 255]` at
`t = 0.5` for the black-to-white demo stops. -/
theorem colorRamp_construction :
    (∀ (l1 : List RampStop) (a b : RampStop) (l2 : List RampStop) (t : ℚ),
      StopsSorted (l1 ++ a :: b :: l2) → a.1 ≤ t → t ≤ b.1 →
      rampColorAt (l1 ++ a :: b :: l2) t = lerpStopColor a.1 a.2 b.1 b.2 t) ∧
    (∀ (s0 : RampStop) (rest : List RampStop) (t : ℚ),
      ((s0 :: rest).getLast (List.cons_ne_nil s0 rest)).1 < t →
      rampColorAt (s0 :: rest) t =
        ((s0 :: rest).getLast (List.cons_ne_nil s0 rest)).2) ∧
    (∀ (s0 : RampStop) (rest : List RampStop) (t : ℚ),
      StopsSorted (s0 :: rest) → t < s0.1 → rampColorAt (s0 :: rest) t = s0.2) ∧
    (∀ (s : RampStop) (t : ℚ), rampColorAt [s] t = s.2) ∧
    (∀ (t0 : ℚ) (c0 : RampColor) (t1 : ℚ) (c1 : RampColor) (t : ℚ),
      c0.a = none → c1.a = none → (lerpStopColor t0 c0 t1 c1 t).a = some 255) ∧
    rampColorAt (sortStops demoRampStops) (1 / 2) = ⟨128, 128, 128, some 255⟩ ∧
    rampBytesAt (sortStops demoRampStops) (1 / 2) = (128, 128, 128, 255) ∧
    (createColorRampData demoRampStops).length = 256 := by
  have hdemo : rampColorAt (sortStops demoRampStops) (1 / 2) = ⟨128, 128, 128, some 255⟩ := by
    norm_num [sortStops, insertStop, demoRampStops, rampColorAt, scanStops, lerpStopColor,
      jsRound, alphaOr255, List.getLast]
  refine ⟨?_, ?_, ?_, ?_, ?_, hdemo, ?_, ?_⟩
  · intro l1 a b l2 t hp ha hb
    obtain ⟨s0, rest, hl⟩ : ∃ s0 rest, l1 ++ a :: b :: l2 = s0 :: rest := by
      cases l1 with
      | nil => exact ⟨a, b :: l2, rfl⟩
      | cons y ys => exact ⟨y, ys ++ a :: b :: l2, rfl⟩
    have hp' : StopsSorted (s0 :: rest) := hl ▸ hp
    have hbmem : b ∈ s0 :: rest := hl ▸ (by simp : b ∈ l1 ++ a :: b :: l2)
    have hble : b.1 ≤ ((s0 :: rest).getLast (List.cons_ne_nil s0 rest)).1 :=
      stops_le_getLast _ _ b hp' hbmem
    have hscan : scanStops t (s0 :: rest) s0.2 = lerpStopColor a.1 a.2 b.1 b.2 t := by
      rw [← hl]
      exact scanStops_bracket t l1 a b l2 s0.2 hp ha hb
    rw [hl, rampColorAt]
    simp only [if_neg (not_lt.mpr (le_trans hb hble))]
    exact hscan
  · intro s0 rest t hlt
    rw [rampColorAt]
    simp only [if_pos hlt]
  · intro s0 rest t hp hlt
    have hfall : scanStops t (s0 :: rest) s0.2 = s0.2 := by
      apply scanStops_of_forall_lt
      intro x hx
      rcases List.mem_cons.mp hx with rfl | hx'
      · exact hlt
      · exact lt_trans hlt ((List.pairwise_cons.mp hp).1 x hx')
    have hfirstlast : s0.1 ≤ ((s0 :: rest).getLast (List.cons_ne_nil s0 rest)).1 :=
      stops_le_getLast _ _ s0 hp (List.mem_cons_self s0 rest)
    rw [rampColorAt]
    simp only [if_neg (not_lt.mpr (le_trans hlt.le hfirstlast))]
    exact hfall
  · intro s t
    rw [rampColorAt]
    rcases lt_or_le ((([s] : List RampStop).getLast (List.cons_ne_nil s [])).1) t with h | h
    · simp only [if_pos h]
      rfl
    · simp only [if_neg (not_lt.mpr h)]
      rfl
  · intro t0 c0 t1 c1 t h0 h1
    simp only [lerpStopColor, alphaOr255, h0, h1, Option.getD_none]
    norm_num [jsRound]
  · rw [rampBytesAt, hdemo]
    norm_num [jsToUint8]
  · rw [createColorRampData, List.length_map, List.length_range]

/-- Claim C7 witness: the bracketing-interpolation part applied to the demo
stops at `t = 1/4`. -/
theorem colorRamp_construction_witness :
    rampColorAt ([] ++ (0, (⟨0, 0, 0, some 255⟩ : RampColor)) ::
        (1, (⟨255, 255, 255, some 255⟩ : RampColor)) :: []) (1 / 4) =
      lerpStopColor 0 ⟨0, 0, 0, some 255⟩ 1 ⟨255, 255, 255, some 255⟩ (1 / 4) :=
  colorRamp_construction.1 [] (0, ⟨0, 0, 0, some 255⟩) (1, ⟨255, 255, 255, some 255⟩)
    [] (1 / 4) (by norm_num [StopsSorted]) (by norm_num) (by norm_num)

end WindGl
